import Mathlib

/-!
Verification development for the AI-todo application (Express + SQLite
backend, `server/src/database.ts`, `server/src/index.ts`,
`server/src/ai-service.ts`).  The definitions below are a shallow
embedding of the server code: SQL statements become list operations,
timestamps become natural numbers, and the single external
chat-completion call of the AI service is abstracted as an explicit
outcome parameter.
-/

namespace Todo

/-- Task status column of the tasks table (`database.ts`, Task interface):
todo, in-progress, done. -/
inductive Status where
  | todo
  | inProgress
  | done
deriving DecidableEq

/-- Task priority column: low, medium, high. -/
inductive Priority where
  | low
  | medium
  | high
deriving DecidableEq

/-- One row of the tasks table.  `created_at` and the optional
`completed_at` are timestamps in seconds; `position` is the integer
ordering column. -/
structure Task where
  id : Nat
  title : String
  description : Option String
  status : Status
  priority : Priority
  created_at : Nat
  completed_at : Option Nat
  position : Int
deriving DecidableEq

/-- The AnalysisResult interface of `ai-service.ts`. -/
structure AnalysisResult where
  patterns : List String
  completionInsights : List String
  failureReasons : List String
  recommendations : List String
deriving DecidableEq

/-- The completed-task sublist (`ai-service.ts` line 19):
`tasks.filter(t => t.status === 'done')`. -/
def completedOf (tasks : List Task) : List Task :=
  tasks.filter fun t => decide (t.status = Status.done)

/-- The incomplete-task sublist (`ai-service.ts` line 20):
`tasks.filter(t => t.status !== 'done')`. -/
def incompleteOf (tasks : List Task) : List Task :=
  tasks.filter fun t => decide (¬ t.status = Status.done)

/-- Rounding of `100 * completed / total` to the nearest integer with ties
rounded up: models `(completed / total * 100).toFixed(0)` followed by
`parseInt` (`ai-service.ts` lines 104 and 149).  Binary floating-point
representation error exactly at .5 ties is not modelled. -/
def roundPct (completed total : Nat) : Nat :=
  (200 * completed + total) / (2 * total)

/-- Ten times `n / 7` rounded to the nearest tenth: models
`(tasks.length / 7).toFixed(1)` (`ai-service.ts` lines 116-117); an exact
tie never occurs for this denominator. -/
def avgPerWeekTimes10 (n : Nat) : Nat :=
  (20 * n + 7) / 14

/-- The one-decimal string produced by `toFixed(1)`. -/
def avgPerWeekString (n : Nat) : String :=
  let r := avgPerWeekTimes10 n
  let q := r / 10
  let d := r % 10
  s!"{q}.{d}"

/-- Lower-case rendering of a priority, as interpolated into the pattern
line of `basicAnalysis`. -/
def priorityName : Priority → String
  | Priority.low => "low"
  | Priority.medium => "medium"
  | Priority.high => "high"

/-- `tasks.filter(t => t.priority === 'high').length`. -/
def highCount (tasks : List Task) : Nat :=
  (tasks.filter fun t => decide (t.priority = Priority.high)).length

/-- `tasks.filter(t => t.priority === 'medium').length`. -/
def mediumCount (tasks : List Task) : Nat :=
  (tasks.filter fun t => decide (t.priority = Priority.medium)).length

/-- `tasks.filter(t => t.priority === 'low').length`. -/
def lowCount (tasks : List Task) : Nat :=
  (tasks.filter fun t => decide (t.priority = Priority.low)).length

/-- The priorityDist object of `basicAnalysis` (`ai-service.ts` lines
119-123) in the insertion order of its literal keys, which is the order
`Object.entries` enumerates them: high, medium, low. -/
def priorityDist (tasks : List Task) : List (Priority × Nat) :=
  [(Priority.high, highCount tasks),
   (Priority.medium, mediumCount tasks),
   (Priority.low, lowCount tasks)]

/-- Comparator of `.sort((a, b) => b[1] - a[1])` on the entry pairs: entry
a may stay no later than entry b exactly when b's count is at most a's.
JavaScript's sort is stable, as is insertion sort against this relation. -/
def byCountDesc (a b : Priority × Nat) : Prop := b.2 ≤ a.2

instance : DecidableRel byCountDesc := fun a b =>
  inferInstanceAs (Decidable (b.2 ≤ a.2))

/-- `Object.entries(priorityDist).sort((a, b) => b[1] - a[1])[0]`
(`ai-service.ts` line 124); the list is always non-empty, so the default
of headD is never used. -/
def mostCommon (tasks : List Task) : Priority × Nat :=
  (List.insertionSort byCountDesc (priorityDist tasks)).headD (Priority.high, 0)

/-- `AIService.basicAnalysis` (`ai-service.ts` lines 103-162), the
deterministic heuristic fallback. -/
def basicAnalysis (tasks completedTasks incompleteTasks : List Task) : AnalysisResult :=
  let completionRate : Nat :=
    if tasks.length > 0 then roundPct completedTasks.length tasks.length else 0
  let highPriorityCompleted :=
    (completedTasks.filter fun t => decide (t.priority = Priority.high)).length
  let highPriorityIncomplete :=
    (incompleteTasks.filter fun t => decide (t.priority = Priority.high)).length
  let patterns :=
    if tasks.length > 0 then
      let avg := avgPerWeekString tasks.length
      let mc := mostCommon tasks
      let mcName := priorityName mc.1
      let mcCount := mc.2
      [s!"You create an average of {avg} tasks per week",
       s!"Most tasks are {mcName} priority ({mcCount} tasks)"]
    else []
  let completionInsights :=
    if completedTasks.length > 0 then
      [s!"You have a {completionRate}% completion rate"] ++
        (if highPriorityCompleted > 0 then
          [s!"You've completed {highPriorityCompleted} high-priority tasks"]
        else [])
    else ["No tasks completed yet - start checking items off your list!"]
  let failureReasons :=
    if incompleteTasks.length > 0 then
      (if highPriorityIncomplete > 0 then
        [s!"{highPriorityIncomplete} high-priority tasks are still pending"]
      else []) ++
        (if incompleteTasks.length > completedTasks.length then
          ["More incomplete tasks than completed - consider breaking down large tasks"]
        else [])
    else []
  let recommendations :=
    (if completionRate < 50 ∧ tasks.length > 3 then
      ["Focus on completing existing tasks before adding new ones"]
    else []) ++
      (if highPriorityIncomplete > 0 then
        ["Prioritize high-priority tasks first for better productivity"]
      else []) ++
      (if incompleteTasks.length > 10 then
        ["Consider archiving or deleting tasks that are no longer relevant"]
      else ["Great job managing your task list! Keep up the momentum"])
  { patterns := patterns, completionInsights := completionInsights,
    failureReasons := failureReasons, recommendations := recommendations }

/-- The heuristic applied with the argument triple `analyzeTasks` itself
passes (`ai-service.ts` lines 55, 83, 96, 99). -/
def analysisOf (tasks : List Task) : AnalysisResult :=
  basicAnalysis tasks (completedOf tasks) (incompleteOf tasks)

/-- Count of pending high-priority tasks (`ai-service.ts` line 107). -/
def highPriorityIncompleteOf (tasks : List Task) : Nat :=
  ((incompleteOf tasks).filter fun t => decide (t.priority = Priority.high)).length

/-- Outcome of the single external chat-completion request as observed by
`analyzeTasks`: the empty-credential guard (line 53), a rejected fetch
promise or any other thrown error (line 97), a non-ok HTTP response
(line 81), or a reply whose first braced substring either parses to a
result or is missing or unparseable (lines 90-96; a JSON.parse throw is
caught by the same catch and lands in the fallback as well, which the
`reply none` case covers). -/
inductive ExternalOutcome where
  | noApiKey
  | requestFailed
  | httpNotOk
  | reply (parsed : Option AnalysisResult)
deriving DecidableEq

/-- `AIService.analyzeTasks` (`ai-service.ts` lines 18-101) with the
network call abstracted into an `ExternalOutcome` parameter; the function
is total, so no branch surfaces an error to the caller. -/
def analyzeTasks (tasks : List Task) (ext : ExternalOutcome) : AnalysisResult :=
  let completedTasks := completedOf tasks
  let incompleteTasks := incompleteOf tasks
  if tasks.length = 0 then
    { patterns := ["No tasks to analyze yet"],
      completionInsights := ["Start adding tasks to get insights"],
      failureReasons := [],
      recommendations := ["Create your first task to begin tracking your productivity"] }
  else
    match ext with
    | ExternalOutcome.noApiKey => basicAnalysis tasks completedTasks incompleteTasks
    | ExternalOutcome.requestFailed => basicAnalysis tasks completedTasks incompleteTasks
    | ExternalOutcome.httpNotOk => basicAnalysis tasks completedTasks incompleteTasks
    | ExternalOutcome.reply none => basicAnalysis tasks completedTasks incompleteTasks
    | ExternalOutcome.reply (some a) => a

/-- The tasks table, as the list of its rows. -/
abbrev Store := List Task

/-- The error responses of the task routes of `index.ts`: 400 for a
failed input validation, 404 for a missing id. -/
inductive ApiError where
  | validationError
  | notFound
deriving DecidableEq

/-- The request body of POST /api/tasks before its destructuring defaults
are applied; a `none` field was absent from the JSON body. -/
structure CreateReq where
  title : Option String
  description : Option String
  status : Option Status
  priority : Option Priority
  position : Option Int
deriving DecidableEq

/-- POST /api/tasks handler (`index.ts` lines 468-484): the `!title`
guard rejects both a missing title and the falsy empty string with a 400;
otherwise the destructuring defaults are inserted and the new row is read
back.  `newId` is the id the store assigns, `now` the CURRENT_TIMESTAMP
default of `created_at`. -/
def createTask (s : Store) (req : CreateReq) (newId : Nat) (now : Nat) :
    Except ApiError Store :=
  match req.title with
  | none => Except.error ApiError.validationError
  | some t =>
    if t = "" then Except.error ApiError.validationError
    else Except.ok (s ++ [{ id := newId, title := t, description := req.description,
                            status := req.status.getD Status.todo,
                            priority := req.priority.getD Priority.medium,
                            created_at := now, completed_at := none,
                            position := req.position.getD 0 }])

/-- The request body of PUT /api/tasks/:id.  `title`, `status` and
`priority` use falsy fallbacks in the handler, so `none` stands for any
falsy value; `description` is compared against undefined explicitly, so it
is doubly optional. -/
structure UpdateReq where
  title : Option String
  description : Option (Option String)
  status : Option Status
  priority : Option Priority
deriving DecidableEq

/-- The row produced by the PUT /api/tasks/:id handler (`index.ts` lines
487-515) for the existing row: `title || existingTask.title` (an empty
string is falsy and keeps the old title), the explicit undefined check for
description, falsy fallbacks for status and priority, and the
`completed_at` stamping rule of lines 496-498; `now` is the clock read by
`new Date()`. -/
def updateTask (existing : Task) (req : UpdateReq) (now : Nat) : Task :=
  let completed_at :=
    if req.status = some Status.done ∧ ¬ existing.status = Status.done
    then some now else existing.completed_at
  { existing with
    title := (match req.title with
      | some t => if t = "" then existing.title else t
      | none => existing.title),
    description := req.description.getD existing.description,
    status := req.status.getD existing.status,
    priority := req.priority.getD existing.priority,
    completed_at := completed_at }

/-- PUT /api/tasks/:id at the store level: 404 when the id matches no row,
otherwise the matched row is replaced by `updateTask` of it. -/
def updateOp (s : Store) (id : Nat) (req : UpdateReq) (now : Nat) :
    Except ApiError Store :=
  match s.find? (fun t => decide (t.id = id)) with
  | none => Except.error ApiError.notFound
  | some existing =>
    Except.ok (s.map fun t => if t.id = id then updateTask existing req now else t)

/-- `taskQueries.updatePosition` (`database.ts` line 360):
UPDATE tasks SET position = ? WHERE id = ?, parameters in that order.
A row set matching no id leaves the table unchanged. -/
def updatePosition (s : Store) (pos : Int) (id : Nat) : Store :=
  s.map fun t => if t.id = id then { t with position := pos } else t

/-- The forEach body of the PATCH /api/tasks/reorder handler (`index.ts`
lines 526-528): each (id, position) pair is written independently and
unconditionally. -/
def reorderApply (s : Store) (pairs : List (Nat × Int)) : Store :=
  pairs.foldl (fun st p => updatePosition st p.2 p.1) s

/-- PATCH /api/tasks/reorder handler (`index.ts` lines 518-535): a body
whose tasks field is not an array (modelled as `none`) is rejected with a
400; otherwise every pair is applied in order and success is reported. -/
def reorderOp (s : Store) (body : Option (List (Nat × Int))) :
    Except ApiError Store :=
  match body with
  | none => Except.error ApiError.validationError
  | some pairs => Except.ok (reorderApply s pairs)

/-- DELETE /api/tasks/:id handler (`index.ts` lines 538-550). -/
def deleteOp (s : Store) (id : Nat) : Except ApiError Store :=
  match s.find? (fun t => decide (t.id = id)) with
  | none => Except.error ApiError.notFound
  | some _ => Except.ok (s.filter fun t => decide (¬ t.id = id))

/-- One mutating API request against the tasks table. -/
inductive Op where
  | create (req : CreateReq) (newId : Nat) (now : Nat)
  | update (id : Nat) (req : UpdateReq) (now : Nat)
  | reorder (body : Option (List (Nat × Int)))
  | delete (id : Nat)

/-- Effect of one request on the table: an error response leaves the
table unchanged. -/
def applyOp (s : Store) : Op → Store
  | Op.create req newId now =>
    match createTask s req newId now with
    | Except.ok s2 => s2
    | Except.error _ => s
  | Op.update id req now =>
    match updateOp s id req now with
    | Except.ok s2 => s2
    | Except.error _ => s
  | Op.reorder body =>
    match reorderOp s body with
    | Except.ok s2 => s2
    | Except.error _ => s
  | Op.delete id =>
    match deleteOp s id with
    | Except.ok s2 => s2
    | Except.error _ => s

/-- ORDER BY position ASC, created_at DESC of `taskQueries.getAll`
(`database.ts` line 345), as a relation on rows. -/
def taskLE (a b : Task) : Prop :=
  a.position < b.position ∨ (a.position = b.position ∧ b.created_at ≤ a.created_at)

instance : DecidableRel taskLE := fun a b =>
  inferInstanceAs
    (Decidable (a.position < b.position ∨ (a.position = b.position ∧ b.created_at ≤ a.created_at)))

instance : IsTotal Task taskLE := by
  constructor
  intro a b
  unfold taskLE
  rcases lt_trichotomy a.position b.position with h | h | h
  · exact Or.inl (Or.inl h)
  · rcases Nat.le_total b.created_at a.created_at with h2 | h2
    · exact Or.inl (Or.inr ⟨h, h2⟩)
    · exact Or.inr (Or.inr ⟨h.symm, h2⟩)
  · exact Or.inr (Or.inl h)

instance : IsTrans Task taskLE := by
  constructor
  intro a b c hab hbc
  unfold taskLE at hab hbc ⊢
  rcases hab with h1 | ⟨h1, h1c⟩ <;> rcases hbc with h2 | ⟨h2, h2c⟩
  · exact Or.inl (lt_trans h1 h2)
  · exact Or.inl (h2 ▸ h1)
  · exact Or.inl (h1 ▸ h2)
  · exact Or.inr ⟨h1.trans h2, le_trans h2c h1c⟩

/-- `taskQueries.getAll`: SELECT * FROM tasks ORDER BY position ASC,
created_at DESC, modelled as sorting the rows by `taskLE`. -/
def getAll (s : Store) : List Task :=
  List.insertionSort taskLE s

/-- SQLite date() truncation of a timestamp to its calendar day, modelled
as the day number obtained by division by 86400 seconds. -/
def sqlDate (ts : Nat) : Nat := ts / 86400

/-- The DailyAnalytics interface of `database.ts`, one aggregate row. -/
structure DailyAnalytics where
  date : Nat
  total_tasks : Nat
  completed_tasks : Nat
  completion_rate : Rat
deriving DecidableEq

/-- Rows whose `date(created_at)` equals the requested date. -/
def tasksOnDate (s : Store) (d : Nat) : Store :=
  s.filter fun t => decide (sqlDate t.created_at = d)

/-- `analyticsQueries.getDailyStats` (`database.ts` lines 373-382): the
GROUP BY produces no row at all when no task was created on the requested
date, and otherwise one aggregate row for it. -/
def getDailyStats (s : Store) (d : Nat) : Option DailyAnalytics :=
  let g := tasksOnDate s d
  if g.length = 0 then none
  else some
    { date := d, total_tasks := g.length,
      completed_tasks := (g.filter fun t => decide (t.status = Status.done)).length,
      completion_rate :=
        ((g.filter fun t => decide (t.status = Status.done)).length : Rat) / (g.length : Rat) * 100 }

/-- GET /api/analytics/daily handler (`index.ts` lines 553-561):
`stats || { date, total_tasks: 0, completed_tasks: 0, completion_rate: 0 }`. -/
def dailyStats (s : Store) (d : Nat) : DailyAnalytics :=
  (getDailyStats s d).getD
    { date := d, total_tasks := 0, completed_tasks := 0, completion_rate := 0 }

/-- `date('now', '-7 days')` as a day number; `now` is the current
timestamp. -/
def weekCutoff (now : Nat) : Nat := sqlDate now - 7

/-- The WHERE clause of `getWeeklyStats`:
date(created_at) >= date('now', '-7 days'). -/
def weeklyWindow (s : Store) (now : Nat) : Store :=
  s.filter fun t => decide (weekCutoff now ≤ sqlDate t.created_at)

/-- The distinct creation dates the GROUP BY of `getWeeklyStats` groups
the window rows under. -/
def weekDates (s : Store) (now : Nat) : List Nat :=
  ((weeklyWindow s now).map fun t => sqlDate t.created_at).dedup

/-- ORDER BY date DESC on day numbers. -/
def natGE (a b : Nat) : Prop := b ≤ a

instance : DecidableRel natGE := fun a b =>
  inferInstanceAs (Decidable (b ≤ a))

instance : IsTotal Nat natGE := by
  constructor
  intro a b
  exact (Nat.le_total b a).imp (fun h => h) (fun h => h)

instance : IsTrans Nat natGE := by
  constructor
  intro a b c hab hbc
  exact le_trans hbc hab

/-- The group of window rows of one date. -/
def weeklyGroup (s : Store) (now : Nat) (d : Nat) : Store :=
  (weeklyWindow s now).filter fun t => decide (sqlDate t.created_at = d)

/-- The aggregate row the weekly SELECT produces for one date group. -/
def weeklyRow (s : Store) (now : Nat) (d : Nat) : DailyAnalytics :=
  let g := weeklyGroup s now d
  { date := d, total_tasks := g.length,
    completed_tasks := (g.filter fun t => decide (t.status = Status.done)).length,
    completion_rate :=
      ((g.filter fun t => decide (t.status = Status.done)).length : Rat) / (g.length : Rat) * 100 }

/-- `analyticsQueries.getWeeklyStats` (`database.ts` lines 384-394): one
aggregate row per creation date present in the trailing window, newest
first. -/
def getWeeklyStats (s : Store) (now : Nat) : List DailyAnalytics :=
  (List.insertionSort natGE (weekDates s now)).map (weeklyRow s now)

/-- A concrete todo row used by the evaluation theorems below. -/
def sampleTodoTask : Task :=
  { id := 1, title := "write", description := none, status := Status.todo,
    priority := Priority.medium, created_at := 3, completed_at := none, position := 0 }

/-- A concrete update request that sets the status to done. -/
def sampleDoneReq : UpdateReq :=
  { title := none, description := none, status := some Status.done, priority := none }

/-- Claim C1: the PUT /api/tasks/:id handler stamps `completed_at` with
the current clock exactly on an update that sets status to done while the
existing status is not done; the stamp is then at or after the row's
creation time; in every other case the existing row's `completed_at` is
carried over unchanged. -/
theorem c1_completed_at_rule (existing : Task) (req : UpdateReq) (now : Nat)
    (h : existing.created_at ≤ now) :
    (req.status = some Status.done ∧ ¬ existing.status = Status.done →
      (updateTask existing req now).completed_at = some now ∧
      existing.created_at ≤ now) ∧
    (¬ (req.status = some Status.done ∧ ¬ existing.status = Status.done) →
      (updateTask existing req now).completed_at = existing.completed_at) := by
  constructor
  · intro hc
    refine ⟨?_, h⟩
    simp [updateTask, if_pos hc]
  · intro hc
    simp [updateTask, if_neg hc]

theorem c1_witness :
    (updateTask sampleTodoTask sampleDoneReq 5).completed_at = some 5 :=
  ((c1_completed_at_rule sampleTodoTask sampleDoneReq 5 (by decide)).1 (by decide)).1

/-- Claim C2: for a non-empty task list, every failing external outcome
(missing credential, thrown request, non-ok response, reply with no
parseable JSON object) makes `analyzeTasks` return the deterministic
`basicAnalysis` result; the function is total, so no hard failure ever
reaches the caller. -/
theorem c2_failure_falls_back (tasks : List Task) (ext : ExternalOutcome)
    (hne : ¬ tasks = [])
    (hfail : ext = ExternalOutcome.noApiKey ∨ ext = ExternalOutcome.requestFailed ∨
      ext = ExternalOutcome.httpNotOk ∨ ext = ExternalOutcome.reply none) :
    analyzeTasks tasks ext = analysisOf tasks := by
  have hlen : ¬ tasks.length = 0 := by
    simpa using hne
  unfold analyzeTasks analysisOf
  rcases hfail with h | h | h | h <;> subst h <;> simp [hlen]

theorem c2_witness :
    analyzeTasks [sampleTodoTask] ExternalOutcome.noApiKey = analysisOf [sampleTodoTask] :=
  c2_failure_falls_back [sampleTodoTask] ExternalOutcome.noApiKey (by simp) (Or.inl rfl)

/-- Claim C3: on the empty task list, `analyzeTasks` returns exactly the
four fixed placeholder lists, independently of the external outcome (no
external call is consulted). -/
theorem c3_empty_analysis (ext : ExternalOutcome) :
    analyzeTasks [] ext =
      { patterns := ["No tasks to analyze yet"],
        completionInsights := ["Start adding tasks to get insights"],
        failureReasons := [],
        recommendations := ["Create your first task to begin tracking your productivity"] } := by
  cases ext with
  | reply p => cases p <;> rfl
  | _ => rfl

/-- Claim C8: for a date on which no task was created, the daily
analytics endpoint substitutes the zero-valued record for the empty
aggregate, with a zero completion rate rather than an error or a
division by zero. -/
theorem c8_daily_zero_fill (s : Store) (d : Nat)
    (h : tasksOnDate s d = []) :
    dailyStats s d =
      { date := d, total_tasks := 0, completed_tasks := 0, completion_rate := 0 } := by
  unfold dailyStats getDailyStats
  rw [h]
  simp

theorem c8_witness :
    dailyStats [sampleTodoTask] 9999 =
      { date := 9999, total_tasks := 0, completed_tasks := 0, completion_rate := 0 } :=
  c8_daily_zero_fill [sampleTodoTask] 9999 (by decide)

/-- Claim C4: the entry selected by the stable descending sort over the
fixed-order bucket counts is the bucket with the maximal count, an
earlier-enumerated bucket (high before medium before low) winning every
tie. -/
theorem c4_most_common_priority (tasks : List Task) (hne : ¬ tasks = []) :
    mostCommon tasks =
      (if mediumCount tasks ≤ highCount tasks ∧ lowCount tasks ≤ highCount tasks then
        (Priority.high, highCount tasks)
      else if lowCount tasks ≤ mediumCount tasks then
        (Priority.medium, mediumCount tasks)
      else
        (Priority.low, lowCount tasks)) := by
  unfold mostCommon priorityDist
  generalize highCount tasks = ch
  generalize mediumCount tasks = cm
  generalize lowCount tasks = cl
  simp only [List.insertionSort, List.orderedInsert, byCountDesc]
  split_ifs <;> simp_all [byCountDesc] <;> split_ifs <;> simp_all <;> omega

theorem c4_witness : mostCommon [sampleTodoTask] = (Priority.medium, 1) := by
  have h := c4_most_common_priority [sampleTodoTask] (by simp)
  simpa using h

/-- Claim C5 (amended): in the recommendations of the heuristic, the
finish-before-adding line appears exactly when the completion percentage
rounded to the nearest integer is below 50 and more than 3 tasks exist
(the code compares `parseInt((completed / total * 100).toFixed(0))`, not
the exact rate, with 50); the prioritize line appears exactly when a
high-priority task is pending; exactly one of the archive line (more than
10 incomplete tasks) and the generic encouragement line appears; hence
the list is never empty and has at most 3 entries. -/
theorem c5_recommendation_lines (tasks : List Task) (hne : ¬ tasks = []) :
    ("Focus on completing existing tasks before adding new ones" ∈
        (analysisOf tasks).recommendations ↔
      roundPct (completedOf tasks).length tasks.length < 50 ∧ 3 < tasks.length) ∧
    ("Prioritize high-priority tasks first for better productivity" ∈
        (analysisOf tasks).recommendations ↔
      0 < highPriorityIncompleteOf tasks) ∧
    ("Consider archiving or deleting tasks that are no longer relevant" ∈
        (analysisOf tasks).recommendations ↔
      10 < (incompleteOf tasks).length) ∧
    ("Great job managing your task list! Keep up the momentum" ∈
        (analysisOf tasks).recommendations ↔
      ¬ 10 < (incompleteOf tasks).length) ∧
    ¬ (analysisOf tasks).recommendations = [] ∧
    (analysisOf tasks).recommendations.length ≤ 3 := by
  have hpos : 0 < tasks.length := List.length_pos.mpr hne
  unfold analysisOf basicAnalysis highPriorityIncompleteOf
  simp only [if_pos hpos, gt_iff_lt]
  split_ifs <;> simp_all

theorem c5_witness :
    "Great job managing your task list! Keep up the momentum" ∈
      (analysisOf [sampleTodoTask]).recommendations := by
  have h := c5_recommendation_lines [sampleTodoTask] (by simp)
  exact (h.2.2.2.1).mpr (by decide)

/-- The store state refuting claim C5 as stated: 101 tasks, 50 done. -/
def cex5tasks : List Task :=
  List.replicate 50 { sampleTodoTask with status := Status.done } ++
    List.replicate 51 sampleTodoTask

/-- Claim C5 as stated is false: with 101 tasks of which 50 are done, the
exact completion rate (100 times 50 over 101 percent) is below 50 percent
and the task count exceeds 3, yet the finish-before-adding recommendation
is absent, because the code rounds the percentage to the nearest integer
(here 50) before comparing it with 50. -/
theorem c5_counterexample :
    100 * (completedOf cex5tasks).length < 50 * cex5tasks.length ∧
    3 < cex5tasks.length ∧
    ¬ "Focus on completing existing tasks before adding new ones" ∈
        (analysisOf cex5tasks).recommendations := by
  decide

/-- An UPDATE whose WHERE clause matches no row leaves the table
unchanged. -/
theorem updatePosition_no_match (s : Store) (pos : Int) (id : Nat)
    (h : ∀ t ∈ s, ¬ t.id = id) : updatePosition s pos id = s := by
  induction s with
  | nil => rfl
  | cons a as ih =>
    have ha : ¬ a.id = id := h a (List.mem_cons_self a as)
    have hrest : ∀ t ∈ as, ¬ t.id = id := fun t ht => h t (List.mem_cons_of_mem a ht)
    have htail : updatePosition as pos id = as := ih hrest
    simp only [updatePosition, List.map_cons, if_neg ha]
    simp only [updatePosition] at htail
    rw [htail]

/-- Claim C6: the reorder endpoint responds with a 400 validation error
exactly when the body's tasks field is not an array; otherwise every
(id, position) pair is applied independently and unconditionally, and a
position write whose id matches no stored task leaves the store
untouched. -/
theorem c6_reorder_validation (s : Store) (pairs : List (Nat × Int)) (id : Nat) (pos : Int)
    (h : ∀ t ∈ s, ¬ t.id = id) :
    reorderOp s none = Except.error ApiError.validationError ∧
    (∀ body e, reorderOp s body = Except.error e →
      body = none ∧ e = ApiError.validationError) ∧
    reorderOp s (some pairs) = Except.ok (reorderApply s pairs) ∧
    updatePosition s pos id = s := by
  refine ⟨rfl, ?_, rfl, updatePosition_no_match s pos id h⟩
  intro body e hbe
  cases body with
  | none =>
    refine ⟨rfl, ?_⟩
    have h2 : ApiError.validationError = e := by simpa [reorderOp] using hbe
    exact h2.symm
  | some ps => simp [reorderOp] at hbe

theorem c6_witness :
    reorderOp [sampleTodoTask] none = Except.error ApiError.validationError ∧
    updatePosition [sampleTodoTask] 7 99 = [sampleTodoTask] := by
  have h := c6_reorder_validation [sampleTodoTask] [(1, 5)] 99 7 (by decide)
  exact ⟨h.1, h.2.2.2⟩

/-- Claim C7: after the reorder batch [(A, 2), (B, 0)], the getAll
listing places a row with id B strictly before a row with id A: the
written positions 0 and 2 differ, so the created_at tiebreak of the ORDER
BY never has to apply. -/
theorem c7_reorder_then_getAll (s : Store) (A B : Nat) (hAB : ¬ A = B)
    (a : Task) (ha : a ∈ s) (haid : a.id = A)
    (b : Task) (hb : b ∈ s) (hbid : b.id = B) :
    ∃ i j, ∃ (hi : i < (getAll (reorderApply s [(A, 2), (B, 0)])).length)
      (hj : j < (getAll (reorderApply s [(A, 2), (B, 0)])).length),
      i < j ∧
      ((getAll (reorderApply s [(A, 2), (B, 0)])).get ⟨i, hi⟩).id = B ∧
      ((getAll (reorderApply s [(A, 2), (B, 0)])).get ⟨j, hj⟩).id = A := by
  have hBA : ¬ B = A := fun e => hAB e.symm
  have hs2 : reorderApply s [(A, 2), (B, 0)] =
      updatePosition (updatePosition s 2 A) 0 B := rfl
  have haimg : ({ a with position := 2 } : Task) ∈ updatePosition s 2 A := by
    have hm := List.mem_map_of_mem
      (fun t => if t.id = A then { t with position := (2 : Int) } else t) ha
    simpa [updatePosition, haid] using hm
  have haimg2 : ({ a with position := 2 } : Task) ∈ reorderApply s [(A, 2), (B, 0)] := by
    rw [hs2]
    have hm := List.mem_map_of_mem
      (fun t => if t.id = B then { t with position := (0 : Int) } else t) haimg
    simpa [updatePosition, haid, hAB] using hm
  have hbimg : b ∈ updatePosition s 2 A := by
    have hm := List.mem_map_of_mem
      (fun t => if t.id = A then { t with position := (2 : Int) } else t) hb
    simpa [updatePosition, hbid, hBA] using hm
  have hbimg2 : ({ b with position := 0 } : Task) ∈ reorderApply s [(A, 2), (B, 0)] := by
    rw [hs2]
    have hm := List.mem_map_of_mem
      (fun t => if t.id = B then { t with position := (0 : Int) } else t) hbimg
    simpa [updatePosition, hbid] using hm
  have hperm := List.perm_insertionSort taskLE (reorderApply s [(A, 2), (B, 0)])
  have hsorted := List.sorted_insertionSort taskLE (reorderApply s [(A, 2), (B, 0)])
  have hamem : ({ a with position := 2 } : Task) ∈ getAll (reorderApply s [(A, 2), (B, 0)]) := by
    unfold getAll
    exact hperm.mem_iff.mpr haimg2
  have hbmem : ({ b with position := 0 } : Task) ∈ getAll (reorderApply s [(A, 2), (B, 0)]) := by
    unfold getAll
    exact hperm.mem_iff.mpr hbimg2
  obtain ⟨iA, hiA⟩ := List.mem_iff_get.mp hamem
  obtain ⟨iB, hiB⟩ := List.mem_iff_get.mp hbmem
  have hlt : (iB : Nat) < (iA : Nat) := by
    rcases lt_trichotomy (iA : Nat) (iB : Nat) with hc | hc | hc
    · exfalso
      have hp : taskLE ((getAll (reorderApply s [(A, 2), (B, 0)])).get iA)
          ((getAll (reorderApply s [(A, 2), (B, 0)])).get iB) :=
        List.pairwise_iff_get.mp hsorted iA iB hc
      rw [hiA, hiB] at hp
      simp [taskLE] at hp
    · exfalso
      have he : iA = iB := Fin.ext hc
      rw [he, hiB] at hiA
      have hid : B = A := by
        have := congrArg Task.id hiA
        simpa [haid, hbid] using this
      exact hBA hid
    · exact hc
  refine ⟨(iB : Nat), (iA : Nat), iB.isLt, iA.isLt, hlt, ?_, ?_⟩
  · have hg : (getAll (reorderApply s [(A, 2), (B, 0)])).get iB = { b with position := 0 } := hiB
    rw [show (⟨(iB : Nat), iB.isLt⟩ : Fin (getAll (reorderApply s [(A, 2), (B, 0)])).length) = iB
      from Fin.ext rfl, hg]
    exact hbid
  · have hg : (getAll (reorderApply s [(A, 2), (B, 0)])).get iA = { a with position := 2 } := hiA
    rw [show (⟨(iA : Nat), iA.isLt⟩ : Fin (getAll (reorderApply s [(A, 2), (B, 0)])).length) = iA
      from Fin.ext rfl, hg]
    exact haid

/-- A second concrete row, user of the C7 evaluation below. -/
def sampleOtherTask : Task :=
  { id := 2, title := "read", description := none, status := Status.todo,
    priority := Priority.low, created_at := 4, completed_at := none, position := 1 }

theorem c7_witness :
    ∃ i j, ∃ (hi : i < (getAll (reorderApply [sampleTodoTask, sampleOtherTask] [(1, 2), (2, 0)])).length)
      (hj : j < (getAll (reorderApply [sampleTodoTask, sampleOtherTask] [(1, 2), (2, 0)])).length),
      i < j ∧
      ((getAll (reorderApply [sampleTodoTask, sampleOtherTask] [(1, 2), (2, 0)])).get ⟨i, hi⟩).id = 2 ∧
      ((getAll (reorderApply [sampleTodoTask, sampleOtherTask] [(1, 2), (2, 0)])).get ⟨j, hj⟩).id = 1 :=
  c7_reorder_then_getAll [sampleTodoTask, sampleOtherTask] 1 2 (by decide)
    sampleTodoTask (by simp) rfl sampleOtherTask (by simp) rfl

/-- The date column of the weekly aggregates is exactly the sorted list
of distinct window dates. -/
theorem weeklyRow_date (s : Store) (now : Nat) (d : Nat) :
    (weeklyRow s now d).date = d := rfl

theorem weekly_dates_eq (s : Store) (now : Nat) :
    (getWeeklyStats s now).map (fun st => st.date) =
      List.insertionSort natGE (weekDates s now) := by
  unfold getWeeklyStats
  rw [List.map_map]
  have hfun : ((fun st : DailyAnalytics => st.date) ∘ weeklyRow s now) = id := rfl
  rw [hfun, List.map_id]

/-- Claim C9: the weekly aggregate lists one row per calendar date of the
trailing window that has at least one task, ordered newest first
(strictly decreasing dates, hence one row per date), and a window date
with no task is simply absent; the hypothesis states that no stored task
was created after the current time. -/
theorem c9_weekly_stats_shape (s : Store) (now : Nat)
    (h : ∀ t ∈ s, sqlDate t.created_at ≤ sqlDate now) :
    ((getWeeklyStats s now).map (fun st => st.date)).Pairwise (fun x y => y < x) ∧
    (∀ d, (∃ st ∈ getWeeklyStats s now, st.date = d) ↔
      (weekCutoff now ≤ d ∧ d ≤ sqlDate now ∧ ∃ t ∈ s, sqlDate t.created_at = d)) := by
  have hperm := List.perm_insertionSort natGE (weekDates s now)
  have hsorted := List.sorted_insertionSort natGE (weekDates s now)
  have hnodup : (List.insertionSort natGE (weekDates s now)).Nodup :=
    hperm.nodup_iff.mpr (List.nodup_dedup _)
  constructor
  · rw [weekly_dates_eq]
    have hand := List.Pairwise.and hsorted hnodup
    exact hand.imp fun hab => lt_of_le_of_ne hab.1 (fun e => hab.2 e.symm)
  · intro d
    constructor
    · rintro ⟨st, hst, hdate⟩
      unfold getWeeklyStats at hst
      obtain ⟨d0, hd0, hfd0⟩ := List.mem_map.mp hst
      have hdd : d0 = d := by
        rw [← hdate, ← hfd0, weeklyRow_date]
      subst hdd
      have hd1 : d0 ∈ weekDates s now := hperm.mem_iff.mp hd0
      unfold weekDates at hd1
      rw [List.mem_dedup] at hd1
      obtain ⟨t, ht, hdt⟩ := List.mem_map.mp hd1
      unfold weeklyWindow at ht
      rw [List.mem_filter] at ht
      obtain ⟨hts, htc⟩ := ht
      have htc2 : weekCutoff now ≤ sqlDate t.created_at := by
        simpa using htc
      refine ⟨hdt ▸ htc2, hdt ▸ h t hts, t, hts, hdt⟩
    · rintro ⟨hcut, hle, t, hts, hdt⟩
      have htw : t ∈ weeklyWindow s now := by
        unfold weeklyWindow
        rw [List.mem_filter]
        refine ⟨hts, ?_⟩
        simpa [hdt] using hcut
      have hd1 : d ∈ weekDates s now := by
        unfold weekDates
        rw [List.mem_dedup]
        exact List.mem_map.mpr ⟨t, htw, hdt⟩
      have hd0 : d ∈ List.insertionSort natGE (weekDates s now) := hperm.mem_iff.mpr hd1
      unfold getWeeklyStats
      refine ⟨_, List.mem_map_of_mem _ hd0, rfl⟩

theorem c9_witness :
    ∃ st ∈ getWeeklyStats [sampleTodoTask] 3, st.date = 0 := by
  have h := (c9_weekly_stats_shape [sampleTodoTask] 3 (by decide)).2 0
  exact h.mpr (by decide)

/-- The PUT handler never stores an empty title: an empty-string request
title is falsy and keeps the existing one. -/
theorem updateTask_title_ne (existing : Task) (req : UpdateReq) (now : Nat)
    (h : ¬ existing.title = "") : ¬ (updateTask existing req now).title = "" := by
  unfold updateTask
  cases htit : req.title with
  | none => simpa using h
  | some t0 =>
    by_cases h0 : t0 = "" <;> simp [h0, h]

/-- A created store keeps non-empty titles: the validation guard already
rejected an empty or missing one. -/
theorem createTask_titles (s : Store) (req : CreateReq) (newId now : Nat) (s2 : Store)
    (he : createTask s req newId now = Except.ok s2)
    (hs : ∀ u ∈ s, ¬ u.title = "") : ∀ u ∈ s2, ¬ u.title = "" := by
  unfold createTask at he
  split at he
  · cases he
  · split at he
    · cases he
    · rename_i t0 h0
      cases he
      intro u hu
      rcases List.mem_append.mp hu with h1 | h1
      · exact hs u h1
      · have h2 := List.mem_singleton.mp h1
        subst h2
        simpa using h0

/-- An updated store keeps non-empty titles. -/
theorem updateOp_titles (s : Store) (id : Nat) (req : UpdateReq) (now : Nat) (s2 : Store)
    (he : updateOp s id req now = Except.ok s2)
    (hs : ∀ u ∈ s, ¬ u.title = "") : ∀ u ∈ s2, ¬ u.title = "" := by
  unfold updateOp at he
  cases hf : s.find? (fun t => decide (t.id = id)) with
  | none => rw [hf] at he; cases he
  | some existing =>
    rw [hf] at he
    cases he
    intro u hu
    obtain ⟨t, ht, hft⟩ := List.mem_map.mp hu
    subst hft
    by_cases hid : t.id = id
    · rw [if_pos hid]
      exact updateTask_title_ne existing req now (hs existing (List.mem_of_find?_eq_some hf))
    · rw [if_neg hid]
      exact hs t ht

/-- A position write keeps titles unchanged. -/
theorem updatePosition_titles (s : Store) (pos : Int) (id : Nat)
    (hs : ∀ u ∈ s, ¬ u.title = "") : ∀ u ∈ updatePosition s pos id, ¬ u.title = "" := by
  intro u hu
  obtain ⟨t, ht, hft⟩ := List.mem_map.mp hu
  subst hft
  by_cases hid : t.id = id
  · rw [if_pos hid]
    simpa using hs t ht
  · rw [if_neg hid]
    exact hs t ht

/-- A reorder batch keeps titles unchanged. -/
theorem reorderApply_titles (pairs : List (Nat × Int)) (s : Store)
    (hs : ∀ u ∈ s, ¬ u.title = "") : ∀ u ∈ reorderApply s pairs, ¬ u.title = "" := by
  induction pairs generalizing s with
  | nil => exact hs
  | cons p ps ih => exact ih _ (updatePosition_titles s p.2 p.1 hs)

/-- A delete keeps the remaining titles. -/
theorem deleteOp_titles (s : Store) (id : Nat) (s2 : Store)
    (he : deleteOp s id = Except.ok s2)
    (hs : ∀ u ∈ s, ¬ u.title = "") : ∀ u ∈ s2, ¬ u.title = "" := by
  unfold deleteOp at he
  cases hf : s.find? (fun t => decide (t.id = id)) with
  | none => rw [hf] at he; cases he
  | some t0 =>
    rw [hf] at he
    cases he
    intro u hu
    exact hs u (List.mem_of_mem_filter hu)

/-- Every request preserves the non-empty-title invariant. -/
theorem applyOp_titles (s : Store) (op : Op)
    (hs : ∀ u ∈ s, ¬ u.title = "") : ∀ u ∈ applyOp s op, ¬ u.title = "" := by
  cases op with
  | create req newId now =>
    simp only [applyOp]
    cases he : createTask s req newId now with
    | ok s2 => exact createTask_titles s req newId now s2 he hs
    | error e => exact hs
  | update id req now =>
    simp only [applyOp]
    cases he : updateOp s id req now with
    | ok s2 => exact updateOp_titles s id req now s2 he hs
    | error e => exact hs
  | reorder body =>
    simp only [applyOp]
    cases body with
    | none => exact hs
    | some pairs => exact reorderApply_titles pairs s hs
  | delete id =>
    simp only [applyOp]
    cases he : deleteOp s id with
    | ok s2 => exact deleteOp_titles s id s2 he hs
    | error e => exact hs

/-- Claim C10: starting from the empty table, no sequence of create,
update, reorder and delete requests can produce a stored row with an
empty title: create rejects an empty or missing title before inserting,
and an update carrying an empty-string title falls back to the prior
title through the falsy check. -/
theorem c10_title_invariant (ops : List Op) (t : Task)
    (ht : t ∈ List.foldl applyOp [] ops) : ¬ t.title = "" := by
  suffices hgen : ∀ s, (∀ u ∈ s, ¬ u.title = "") →
      ∀ u ∈ List.foldl applyOp s ops, ¬ u.title = "" by
    exact hgen [] (by simp) t ht
  clear ht t
  induction ops with
  | nil =>
    intro s hs
    simpa using hs
  | cons op ops ih =>
    intro s hs
    exact ih _ (applyOp_titles s op hs)

/-- A concrete create request used by the C10 evaluation. -/
def sampleCreateReq : CreateReq :=
  { title := some "write", description := none, status := none,
    priority := none, position := none }

theorem c10_witness :
    ¬ ({ id := 1, title := "write", description := none, status := Status.todo,
         priority := Priority.medium, created_at := 0, completed_at := none,
         position := 0 } : Task).title = "" :=
  c10_title_invariant [Op.create sampleCreateReq 1 0]
    { id := 1, title := "write", description := none, status := Status.todo,
      priority := Priority.medium, created_at := 0, completed_at := none,
      position := 0 } (by decide)

end Todo
